import Mathlib

/-!
Verification development for the code-synthesis engine of `src/auto-generator.ts`
(class `AutoGenerator`).  The relevant parts of the generator are embedded as
executable Lean functions operating on an ASCII model of JavaScript strings:
a JS string is a Lean `String` (a list of `Char`s), `toLowerCase`/`toUpperCase`
are modelled on the ASCII range (the raw SQL type strings and option values the
generator manipulates are ASCII), and the fixed regular expressions of the
source are translated to explicit prefix/suffix/substring scans.

External collaborators that the generator merely calls (`recase`, `pluralize`
from `./types`) are taken as function parameters or universally quantified
strings, exactly as the spec treats them ("pure functions the core consumes").

JavaScript values that can flow through `defaultValue` are modelled by `JsVal`;
a JS runtime `TypeError` (for instance calling `.toLowerCase()` on a value that
has no such method) and non-termination of the two self-recursive mappers are
modelled by an outer `Option` being `none`.
-/

/-! ## ASCII model of the JS string primitives -/

/-- ASCII `toLowerCase` on one character (JS `String.prototype.toLowerCase`
restricted to the ASCII range, which is all the generator ever feeds it). -/
def charLower (c : Char) : Char :=
  if 'A' ≤ c ∧ c ≤ 'Z' then Char.ofNat (c.toNat + 32) else c

/-- ASCII `toUpperCase` on one character. -/
def charUpper (c : Char) : Char :=
  if 'a' ≤ c ∧ c ≤ 'z' then Char.ofNat (c.toNat - 32) else c

/-- `s.toLowerCase()`. -/
def strLower (s : String) : String := ⟨s.data.map charLower⟩

/-- `s.toUpperCase()`. -/
def strUpper (s : String) : String := ⟨s.data.map charUpper⟩

/-- Does `l` start with the pattern `p`? (anchored regex `^p`). -/
def startsWithL : List Char → List Char → Bool
  | [], _ => true
  | _ :: _, [] => false
  | p :: ps, c :: cs => p == c && startsWithL ps cs

/-- `s` starts with `pat`. -/
def startsWithS (s pat : String) : Bool := startsWithL pat.data s.data

/-- Does `l` end with the pattern `p`? (regex `p$`). -/
def endsWithL (p l : List Char) : Bool := startsWithL p.reverse l.reverse

/-- `s` ends with `pat`. -/
def endsWithS (s pat : String) : Bool := endsWithL pat.data s.data

/-- Does `l` contain the pattern `p` as a contiguous substring?
(unanchored regex `p`). -/
def containsL (p : List Char) : List Char → Bool
  | [] => startsWithL p []
  | c :: cs => startsWithL p (c :: cs) || containsL p cs

/-- `s` contains `pat` as a substring. -/
def containsS (s pat : String) : Bool := containsL pat.data s.data

/-- First alternative of `alts` that is a prefix of `s` (JS alternation
`/^(a1|a2|...)/` tries the alternatives left to right). -/
def firstAltOf (alts : List String) (s : String) : Option String :=
  alts.find? (fun p => startsWithS s p)

/-- A regex-`\d` digit. -/
def isDig (c : Char) : Bool := '0' ≤ c && c ≤ '9'

/-- Try to match `\(\d+\)` at the head of `l`, returning the matched text. -/
def matchLenAt (l : List Char) : Option (List Char) :=
  match l with
  | '(' :: rest =>
    let ds := rest.takeWhile isDig
    let rest2 := rest.dropWhile isDig
    match ds, rest2 with
    | [], _ => none
    | _ :: _, ')' :: _ => some ('(' :: ds ++ [')'])
    | _ :: _, _ => none
  | _ => none

/-- Leftmost match of `\(\d+\)` in `l` (JS `String.prototype.match`). -/
def findLenL : List Char → Option (List Char)
  | [] => none
  | c :: cs =>
    match matchLenAt (c :: cs) with
    | some m => some m
    | none => findLenL cs

/-- `type.match(/\(\d+\)/)`, as the matched text. -/
def findLen (s : String) : Option String := (findLenL s.data).map String.mk

/-- Try to match `\(\d+,\d+\)` at the head of `l`. -/
def matchPrecAt (l : List Char) : Option (List Char) :=
  match l with
  | '(' :: rest =>
    let d1 := rest.takeWhile isDig
    let rest2 := rest.dropWhile isDig
    match d1, rest2 with
    | [], _ => none
    | _ :: _, ',' :: rest3 =>
      let d2 := rest3.takeWhile isDig
      let rest4 := rest3.dropWhile isDig
      match d2, rest4 with
      | [], _ => none
      | _ :: _, ')' :: _ => some ('(' :: d1 ++ ',' :: d2 ++ [')'])
      | _ :: _, _ => none
    | _ :: _, _ => none
  | _ => none

/-- Leftmost match of `\(\d+,\d+\)` in `l`. -/
def findPrecL : List Char → Option (List Char)
  | [] => none
  | c :: cs =>
    match matchPrecAt (c :: cs) with
    | some m => some m
    | none => findPrecL cs

/-- `type.match(/\(\d+,\d+\)/)`, as the matched text. -/
def findPrec (s : String) : Option String := (findPrecL s.data).map String.mk

/-- Render an optional regex match the way the source concatenates it:
the matched text when present, the empty string otherwise
(`!_.isNull(length) ? length : ''`). -/
def optStr : Option String → String
  | some m => m
  | none => ""

/-- `parts.join(sep)` on lists of characters. -/
def intercalateL (sep : List Char) : List (List Char) → List Char
  | [] => []
  | [x] => x
  | x :: y :: xs => x ++ sep ++ intercalateL sep (y :: xs)

/-- `parts.join(sep)`. -/
def intercalateS (sep : String) (parts : List String) : String :=
  ⟨intercalateL sep.data (parts.map (·.data))⟩

/-- `s.split(',')` on a list of characters; `[] ↦ [[]]` like JS
`''.split(',') = ['']`. -/
def splitComma : List Char → List (List Char)
  | [] => [[]]
  | c :: cs =>
    let r := splitComma cs
    if c = ',' then [] :: r
    else
      match r with
      | h :: t => (c :: h) :: t
      | [] => [[c]]

/-- `s.split(',')`. -/
def splitCommaS (s : String) : List String := (splitComma s.data).map String.mk

/-! ## Data model (from `src/types.ts` surface used by the generator) -/

/-- The parts of an `FKSpec` the generator reads. -/
structure FKSpec where
  isForeignKey : Bool := false
  isUnique : Bool := false
  isPrimaryKey : Bool := false
  isSerialKey : Bool := false
  targetTable : String := ""
  targetColumn : String := ""
deriving DecidableEq

/-- The parts of a column descriptor (`FieldM` / `TSField`) the type mappers,
the default-value logic and the foreign-key assignment read. -/
structure FieldM where
  type : String
  elementType : Option String := none
  special : Option (List String) := none
  foreignKey : Option FKSpec := none
  primaryKey : Bool := false
deriving DecidableEq

/-- The `additional` free-form options bag, with the keys the generator reads. -/
structure AdditionalM where
  timestamps : Option Bool := none
  paranoid : Option Bool := none
  createdAt : Option String := none
  updatedAt : Option String := none
  deletedAt : Option String := none
deriving DecidableEq

/-- The generator options (`AutoGenerator.options`, lines 15-26). -/
structure Options where
  indentation : Option Nat := none
  spaces : Option Bool := none
  lang : Option String := none
  caseModel : Option String := none
  caseProp : Option String := none
  caseFile : Option String := none
  additional : AdditionalM := {}
  schema : Option String := none
  singularize : Bool := false
  noAlias : Option Bool := none
deriving DecidableEq

/-- A relation descriptor (`Relation` from `./types`). -/
structure Relation where
  parentModel : String
  childModel : String
  parentProp : String
  childProp : String
  parentId : String
  childId : String := ""
  joinModel : String := ""
  isOne : Bool := false
  isM2M : Bool := false
deriving DecidableEq

/-- The attribute name `getSqType` / `getTypeScriptFieldType` is called with. -/
inductive SqAttr
  | type
  | elementType
deriving DecidableEq

/-- `fieldObj[attr]` for the two attribute names used; `none` models a JS
`undefined` property. -/
def attrVal (f : FieldM) : SqAttr → Option String
  | .type => some f.type
  | .elementType => f.elementType

/-! ## The recognizer predicates (lines 674-696) -/

/-- `/^(smallint|mediumint|tinyint|int|bigint|float|money|smallmoney|double|decimal|numeric|real)/.test`
(line 675); `fieldType` is expected as the caller passes it. -/
def isNumberS (ft : String) : Bool :=
  startsWithS ft "smallint" || startsWithS ft "mediumint" || startsWithS ft "tinyint" ||
  startsWithS ft "int" || startsWithS ft "bigint" || startsWithS ft "float" ||
  startsWithS ft "money" || startsWithS ft "smallmoney" || startsWithS ft "double" ||
  startsWithS ft "decimal" || startsWithS ft "numeric" || startsWithS ft "real"

/-- `/^(boolean|bit)/.test` (line 679). -/
def isBooleanS (ft : String) : Bool :=
  startsWithS ft "boolean" || startsWithS ft "bit"

/-- `/^(datetime|timestamp)/.test` (line 683). -/
def isDateS (ft : String) : Bool :=
  startsWithS ft "datetime" || startsWithS ft "timestamp"

/-- `/^(char|nchar|string|varying|varchar|nvarchar|text|longtext|mediumtext|tinytext|ntext|uuid|uniqueidentifier|date|time)/.test`
(line 687). -/
def isStringS (ft : String) : Bool :=
  startsWithS ft "char" || startsWithS ft "nchar" || startsWithS ft "string" ||
  startsWithS ft "varying" || startsWithS ft "varchar" || startsWithS ft "nvarchar" ||
  startsWithS ft "text" || startsWithS ft "longtext" || startsWithS ft "mediumtext" ||
  startsWithS ft "tinytext" || startsWithS ft "ntext" || startsWithS ft "uuid" ||
  startsWithS ft "uniqueidentifier" || startsWithS ft "date" || startsWithS ft "time"

/-- `/(^array)|(range$)/.test` (line 691). -/
def isArrayS (ft : String) : Bool :=
  startsWithS ft "array" || endsWithS ft "range"

/-- `/^(enum)/.test` (line 695). -/
def isEnumS (ft : String) : Bool :=
  startsWithS ft "enum"

/-- `/^enum(\(.*\))?$/` (line 534): either exactly `enum`, or `enum(` ... `)`
where the inner `.*` may not contain a line terminator (JS `.` matches
neither `\n` nor `\r`). -/
def enumFullMatch (ft : String) : Bool :=
  ft = "enum" ||
  (startsWithS ft "enum(" && endsWithS ft ")" && decide (6 ≤ ft.data.length) &&
   !((ft.data.drop 5).dropLast.any (fun c => c = '\n' ∨ c = '\r')))

/-- JS `String.prototype.substring` with its clamping and argument swapping. -/
def jsSubstring (s : String) (a b : Int) : String :=
  let n : Int := s.data.length
  let a2 := min (max a 0) n
  let b2 := min (max b 0) n
  ⟨(s.data.take (max a2 b2).toNat).drop (min a2 b2).toNat⟩

/-- `AutoGenerator.getEnumValues` (lines 627-635): postgres `special` values
are quote-wrapped; otherwise the mysql `enum(...)` literal is sliced up. -/
def getEnumValues (f : FieldM) : List String :=
  match f.special with
  | some vs => vs.map (fun v => "\"" ++ v ++ "\"")
  | none => splitCommaS (jsSubstring f.type 5 ((f.type.data.length : Int) - 1))

/-- `fieldObj.elementType ? '(' + fieldObj.elementType + ')' : ''`
(lines 522 and 525, JS truthiness: the empty string is falsy). -/
def elemTypeParen (f : FieldM) : String :=
  match f.elementType with
  | some e => if e = "" then "" else "(" ++ e ++ ")"
  | none => ""

/-! ## `AutoGenerator.getSqType` (lines 453-540)

The result is `Option (Option String)`: the outer `none` models a JS
`TypeError` (reading `.toLowerCase` of `undefined` when the `elementType`
attribute is missing) or non-termination of the `array` self-recursion
(the `fuel` argument); `some none` models the final `return val` with
`val` still `null` when no rule matched; `some (some v)` is a produced
type expression. -/
def getSqType : Nat → FieldM → SqAttr → Option (Option String)
  | 0, _, _ => none
  | Nat.succ fuel, f, attr =>
    match attrVal f attr with
    | none => none
    | some raw =>
      let type := strLower raw
      let lenStr := optStr (findLen type)
      let precStr := optStr (findPrec type)
      if type = "boolean" ∨ type = "bit(1)" ∨ type = "bit" ∨ type = "tinyint(1)" then
        some (some "DataTypes.BOOLEAN")
      else if type = "numrange" then some (some "DataTypes.RANGE(DataTypes.DECIMAL)")
      else if type = "int4range" then some (some "DataTypes.RANGE(DataTypes.INTEGER)")
      else if type = "int8range" then some (some "DataTypes.RANGE(DataTypes.BIGINT)")
      else if type = "daterange" then some (some "DataTypes.RANGE(DataTypes.DATEONLY)")
      else if type = "tsrange" ∨ type = "tstzrange" then some (some "DataTypes.RANGE(DataTypes.DATE)")
      else
        match firstAltOf ["bigint", "smallint", "mediumint", "tinyint", "int"] type with
        | some m =>
          some (some ("DataTypes." ++ (if m = "int" then "INTEGER" else strUpper m) ++
            (if containsS type "unsigned" then ".UNSIGNED" else "") ++
            (if containsS type "zerofill" then ".ZEROFILL" else "")))
        | none =>
          if type = "nvarchar(max)" ∨ type = "varchar(max)" then some (some "DataTypes.TEXT")
          else if containsS type "varchar" || containsS type "string" || containsS type "varying" then
            some (some ("DataTypes.STRING" ++ lenStr))
          else if startsWithS type "char" || startsWithS type "nchar" then
            some (some ("DataTypes.CHAR" ++ lenStr))
          else if startsWithS type "real" then some (some "DataTypes.REAL")
          else if endsWithS type "text" then some (some ("DataTypes.TEXT" ++ lenStr))
          else if type = "date" then some (some "DataTypes.DATEONLY")
          else if startsWithS type "date" || startsWithS type "timestamp" then
            some (some ("DataTypes.DATE" ++ lenStr))
          else if startsWithS type "time" then some (some "DataTypes.TIME")
          else if startsWithS type "float" || startsWithS type "float4" then
            some (some ("DataTypes.FLOAT" ++ precStr))
          else if startsWithS type "decimal" || startsWithS type "numeric" then
            some (some ("DataTypes.DECIMAL" ++ precStr))
          else if startsWithS type "money" then some (some "DataTypes.DECIMAL(19,4)")
          else if startsWithS type "smallmoney" then some (some "DataTypes.DECIMAL(10,4)")
          else if startsWithS type "float8" || startsWithS type "double" then
            some (some ("DataTypes.DOUBLE" ++ precStr))
          else if startsWithS type "uuid" || containsS type "uniqueidentifier" then
            some (some "DataTypes.UUID")
          else if startsWithS type "jsonb" then some (some "DataTypes.JSONB")
          else if startsWithS type "json" then some (some "DataTypes.JSON")
          else if startsWithS type "geometry" then
            some (some ("DataTypes.GEOMETRY" ++ elemTypeParen f))
          else if startsWithS type "geography" then
            some (some ("DataTypes.GEOGRAPHY" ++ elemTypeParen f))
          else if startsWithS type "array" then
            match getSqType fuel f .elementType with
            | none => none
            | some el =>
              some (some ("DataTypes.ARRAY(" ++ (match el with | some s => s | none => "null") ++ ")"))
          else if containsS type "binary" || containsS type "image" || containsS type "blob" then
            some (some "DataTypes.BLOB")
          else if startsWithS type "hstore" then some (some "DataTypes.HSTORE")
          else if enumFullMatch type then
            some (some ("DataTypes.ENUM(" ++ intercalateS "," (getEnumValues f) ++ ")"))
          else some none

example : getSqType 9 { type := "varchar(45)" } .type = some (some "DataTypes.STRING(45)") := by decide
example : getSqType 9 { type := "decimal(10,2)" } .type = some (some "DataTypes.DECIMAL(10,2)") := by decide
example : getSqType 9 { type := "float8" } .type = some (some "DataTypes.FLOAT") := by decide
example : getSqType 9 { type := "double precision" } .type = some (some "DataTypes.DOUBLE") := by decide
example : getSqType 9 { type := "TINYINT(1)" } .type = some (some "DataTypes.BOOLEAN") := by decide
example : getSqType 9 { type := "tinyint(4) unsigned" } .type = some (some "DataTypes.TINYINT.UNSIGNED") := by decide
example : getSqType 9 { type := "enum('a','b')" } .type = some (some "DataTypes.ENUM('a','b')") := by decide
example : getSqType 9 { type := "xyzzy" } .type = some none := by decide

/-! ## `AutoGenerator.getTypeScriptFieldType` (lines 596-625)

Returns the static type together with the list of diagnostic messages the
call printed (`console.log`).  The outer `Option` is `none` when the
`array`/`range` self-recursion would not terminate (fuel exhausted). -/
def getTypeScriptFieldType : Nat → FieldM → SqAttr → Option (String × List String)
  | 0, _, _ => none
  | Nat.succ fuel, f, attr =>
    let rawFieldType := match attrVal f attr with | some s => s | none => ""
    let fieldType := strLower rawFieldType
    if isArrayS fieldType then
      match getTypeScriptFieldType fuel f .elementType with
      | none => none
      | some (eltype, ds) => some (eltype ++ "[]", ds)
    else if f.type = "TINYINT(1)" then some ("boolean", [])
    else if isNumberS fieldType then some ("number", [])
    else if isBooleanS fieldType then some ("boolean", [])
    else if isDateS fieldType then some ("Date", [])
    else if isStringS fieldType then some ("string", [])
    else if isEnumS fieldType then some (intercalateS " | " (getEnumValues f), [])
    else if fieldType = "json" then some ("JSONValue", [])
    else some ("any", ["Missing TypeScript type: " ++ (if fieldType = "" then f.type else fieldType)])

/-- The recognizers of `getTypeScriptFieldType`, as one predicate: a lowered
type string `ft` of a field `f` matches some rule of the static mapper. -/
def recognizedStatic (f : FieldM) (ft : String) : Bool :=
  isArrayS ft || f.type = "TINYINT(1)" || isNumberS ft || isBooleanS ft ||
  isDateS ft || isStringS ft || isEnumS ft || ft = "json"

example : getTypeScriptFieldType 9 { type := "varchar(45)" } .type = some ("string", []) := by decide
example : getTypeScriptFieldType 9 { type := "TINYINT(1)" } .type = some ("boolean", []) := by decide
example : getTypeScriptFieldType 9 { type := "tinyint(1)" } .type = some ("number", []) := by decide
example : getTypeScriptFieldType 9 { type := "blob" } .type
    = some ("any", ["Missing TypeScript type: blob"]) := by decide
example : getTypeScriptFieldType 9 { type := "ARRAY", elementType := some "text" } .type
    = some ("string[]", []) := by decide

/-! ## JavaScript values reaching `defaultValue` -/

/-- The JS values the `defaultValue` handling distinguishes. -/
inductive JsVal
  | strV (s : String)
  | numV (n : Int)
  | boolV (b : Bool)
  | nullV
  | undefV
deriving DecidableEq

/-- JS truthiness of a `JsVal`. -/
def truthy : JsVal → Bool
  | .strV s => !(s = "")
  | .numV n => !(n = 0)
  | .boolV b => b
  | .nullV => false
  | .undefV => false

/-- String interpolation of a non-string `JsVal` (`"" + v`), used when the
emitted `defaultValue:` text is built from a non-string default. -/
def jsValText : JsVal → String
  | .strV s => s
  | .numV n => toString n
  | .boolV b => if b then "true" else "false"
  | .nullV => "null"
  | .undefV => "undefined"

/-! ## `AutoGenerator.escapeSpecial` (lines 654-667)

The eight chained `replace` calls act independently on single characters
(none of the replacements produces a character a later rule rewrites), so
they are one character-wise expansion. -/

/-- Expansion of one character under `escapeSpecial`. -/
def escChar (c : Char) : List Char :=
  if c = '\\' then ['\\', '\\']
  else if c = '"' then ['\\', '"']
  else if c = '/' then ['\\', '/']
  else if c = '\x08' then ['\\', 'b']
  else if c = '\x0c' then ['\\', 'f']
  else if c = '\n' then ['\\', 'n']
  else if c = '\r' then ['\\', 'r']
  else if c = '\t' then ['\\', 't']
  else [c]

/-- `escapeSpecial` on the character list. -/
def escL : List Char → List Char
  | [] => []
  | c :: cs => escChar c ++ escL cs

/-- `AutoGenerator.escapeSpecial` on a string value. -/
def escapeSpecial (s : String) : String := ⟨escL s.data⟩

/-! ## The `defaultValue` handling of `AutoGenerator.addField` (lines 309-371) -/

/-- `defaultVal.replace(/^{/, '')` (strip one leading brace). -/
def stripLeadBrace (s : String) : String :=
  match s.data with
  | c :: rest => if c = Char.ofNat 123 then ⟨rest⟩ else s
  | [] => s

/-- `.replace(/}$/, '')` (strip one trailing brace). -/
def stripTrailBrace (s : String) : String :=
  if endsWithS s ⟨[Char.ofNat 125]⟩ then ⟨s.data.dropLast⟩ else s

/-- `defaultVal.replace(/[)(]/g, '')` (drop every parenthesis). -/
def removeParens (s : String) : String :=
  ⟨s.data.filter (fun c => !(c = '(' ∨ c = ')'))⟩

/-- The five keywords of line 355. -/
def sqlNowKeywords : List String :=
  ["current_timestamp", "current_date", "current_time", "localtime", "localtimestamp"]

/-- The string-typed branch of the `defaultValue` handling (lines 326-362):
`defaultVal` is escaped, then converted according to the column's lowered
type string.  `elementType` is passed raw; a missing one reaches the
`isString` regex as the JS coercion `"undefined"`. -/
def convertStringDefault (fieldTypeRaw : String) (elementType : Option String) (s0 : String) : String :=
  let fieldTypeL := strLower fieldTypeRaw
  let dv := escapeSpecial s0
  if fieldTypeL = "bit(1)" ∨ fieldTypeL = "bit" ∨ fieldTypeL = "boolean" then
    if containsS (strLower dv) "1" || containsS (strLower dv) "true" then "true" else "false"
  else if isArrayS fieldTypeL then
    let v1 := stripTrailBrace (stripLeadBrace dv)
    let v2 :=
      if ¬(v1 = "") ∧ isStringS (match elementType with | some e => e | none => "undefined") = true then
        intercalateS "," ((splitCommaS v1).map (fun x => "\"" ++ x ++ "\""))
      else v1
    "[" ++ v2 ++ "]"
  else if isNumberS fieldTypeL || startsWithS fieldTypeL "json" then
    removeParens dv
  else if fieldTypeL = "uuid" ∧ (dv = "gen_random_uuid()" ∨ dv = "uuid_generate_v4()") then
    "DataTypes.UUIDV4"
  else if endsWithS dv "()" || endsWithS dv "())" then
    "Sequelize.Sequelize.fn('" ++ removeParens dv ++ "')"
  else if startsWithS fieldTypeL "date" || startsWithS fieldTypeL "timestamp" then
    if sqlNowKeywords.contains (strLower dv) then
      "Sequelize.Sequelize.literal('" ++ dv ++ "')"
    else "\"" ++ dv ++ "\""
  else "\"" ++ dv ++ "\""

/-- Lines 311-313: under mssql a truthy default equal (case-insensitively)
to `(newid())` becomes the JS `null`.  The result `none` models the
`TypeError` thrown by `defaultVal.toLowerCase()` when the truthy default is
not a string. -/
def mssqlNewidFilter (dialectName : String) (dv0 : JsVal) : Option JsVal :=
  if dialectName = "mssql" ∧ truthy dv0 = true then
    match dv0 with
    | .strV s => some (if strLower s = "(newid())" then .nullV else .strV s)
    | _ => none
  else some dv0

/-- Lines 314-316: `(NULL)`, `NULL` and an undefined default become the JS
`null` under mssql. -/
def mssqlNullFilter (dialectName : String) (dv1 : JsVal) : JsVal :=
  if dialectName = "mssql" ∧ (dv1 = .strV "(NULL)" ∨ dv1 = .strV "NULL" ∨ dv1 = .undefV) then
    JsVal.nullV
  else dv1

/-- Lines 318-371 after the pre-filters: drop null/undefined and serial-key
defaults, convert string defaults, pass other values through as text. -/
def emitDefault (dv2 : JsVal) (fieldTypeRaw : String) (elementType : Option String)
    (isSerialKey : Bool) : Option String :=
  if dv2 = .nullV ∨ dv2 = .undefV then none
  else if isSerialKey then none
  else
    match dv2 with
    | .strV s => some (convertStringDefault fieldTypeRaw elementType s)
    | v => some (jsValText v)

/-- The complete `defaultValue` attribute handling of `addField`
(lines 309-371), staged exactly as its statements run: the mssql
`(newid())` probe, the mssql null normalization, then the drop/convert
body.  `some none` means the attribute is not emitted (`return true`);
`some (some v)` means `defaultValue: v` is emitted; the outer `none`
models the thrown `TypeError`. -/
def normalizeDefault (dialectName : String) (dv0 : JsVal) (fieldTypeRaw : String)
    (elementType : Option String) (isSerialKey : Bool) : Option (Option String) :=
  match mssqlNewidFilter dialectName dv0 with
  | none => none
  | some dv1 =>
    some (emitDefault (mssqlNullFilter dialectName dv1) fieldTypeRaw elementType isSerialKey)

example : normalizeDefault "mysql" (.strV "1") "bit(1)" none false = some (some "true") := by decide
example : normalizeDefault "mysql" (.strV "CURRENT_TIMESTAMP") "timestamp" none false
    = some (some "Sequelize.Sequelize.literal('CURRENT_TIMESTAMP')") := by decide
example : normalizeDefault "postgres" (.strV "now()") "timestamp" none false
    = some (some "Sequelize.Sequelize.fn('now')") := by decide
example : normalizeDefault "mssql" (.strV "(NEWID())") "uniqueidentifier" none false = some none := by decide
example : normalizeDefault "postgres" (.strV "(NULL)") "int4" none false = some (some "NULL") := by decide
example : normalizeDefault "mssql" (.strV "(5)") "int" none false = some (some "5") := by decide
example : normalizeDefault "postgres" (.strV "abc") "varchar(10)" none false
    = some (some "\"abc\"") := by decide
example : normalizeDefault "postgres" .undefV "varchar(10)" none false = some none := by decide

/-! ## The field-name override of `addField` (lines 396-402) -/

/-- The trailing `field: '<name>'` emission of `addField`: when the recased
property name differs from the raw column name, the raw name is written
back, unless the column is a primary key, the dialect cannot alias primary
keys, and the names differ only by letter case. -/
def fieldOverride (sp3 field fieldName : String) (primaryKey canAliasPK : Bool) : String :=
  if ¬(field = fieldName) then
    if ¬primaryKey || canAliasPK || ¬(strUpper field = strUpper fieldName) then
      sp3 ++ "field: '" ++ field ++ "',\n"
    else ""
  else ""

/-- The foreign-key write-back of `addField` (lines 240-245): when the
(table, field) pair has an `FKSpec`, it is stored on the column descriptor,
mutating it. -/
def addFieldApplyFK (fieldObj : FieldM) (foreignKey : Option FKSpec) : FieldM :=
  match foreignKey with
  | some fk => { fieldObj with foreignKey := some fk }
  | none => fieldObj

/-! ## The association block of `AutoGenerator.addTable` (lines 187-209) -/

/-- The `bAlias` of line 199: explicit belongs-to alias, empty when alias
suppression holds and the lowered parent model equals the lowered parent
property. -/
def bAliasStr (noAlias : Bool) (rel : Relation) : String :=
  if noAlias ∧ strLower rel.parentModel = strLower rel.parentProp then ""
  else "as: \"" ++ rel.parentProp ++ "\", "

/-- The `hAlias` of line 205: explicit has-one/has-many alias, empty when
alias suppression holds and the pluralized lowered child model equals the
lowered child property. -/
def hAliasStr (noAlias : Bool) (plur : String → String) (rel : Relation) : String :=
  if noAlias ∧ plur (strLower rel.childModel) = strLower rel.childProp then ""
  else "as: \"" ++ rel.childProp ++ "\", "

/-- The association comment lines one relation contributes to the table
`tableNameOrig`, given the (already force-set) `noAlias` flag and the
external `pluralize`.  Literal braces of the emitted JS are written with
their character codes. -/
def relLines (noAlias : Bool) (plur : String → String) (tableNameOrig sp3 : String)
    (rel : Relation) : List String :=
  if rel.isM2M then
    if rel.parentModel = tableNameOrig then
      [sp3 ++ "// (autogenerated) models." ++ rel.parentModel ++ ".belongsToMany(models." ++
        rel.childModel ++ ", \x7b as: '" ++ plur rel.childProp ++ "', through: models." ++
        rel.joinModel ++ ", foreignKey: \"" ++ rel.parentId ++ "\", otherKey: \"" ++
        rel.childId ++ "\" \x7d);\n"]
    else []
  else
    (if rel.childModel = tableNameOrig then
      [sp3 ++ "// (autogenerated) models." ++ rel.childModel ++ ".belongsTo(models." ++
        rel.parentModel ++ ", \x7b " ++ bAliasStr noAlias rel ++ "foreignKey: \"" ++
        rel.parentId ++ "\"\x7d);\n"]
    else []) ++
    (if rel.parentModel = tableNameOrig then
      [sp3 ++ "// (autogenerated) models." ++ rel.parentModel ++ "." ++
        (if rel.isOne then "hasOne" else "hasMany") ++ "(models." ++
        rel.childModel ++ ", \x7b " ++ hAliasStr noAlias plur rel ++ "foreignKey: \"" ++
        rel.parentId ++ "\"\x7d);\n"]
    else [])

/-- JS truthiness of the optional `noAlias` option. -/
def truthyOptB : Option Bool → Bool
  | some b => b
  | none => false

/-- The association phase of `addTable` (lines 187-213): line 187 first
overwrites `options.noAlias` with `true`, then every relation contributes
its comment lines under the overwritten flag.  Returns the accumulated
association text together with the options object as it is left behind. -/
def addTableAssoc (opts : Options) (plur : String → String) (relations : List Relation)
    (tableNameOrig sp3 : String) : String × Options :=
  let opts2 : Options := { opts with noAlias := some true }
  (String.join ((relations.map (relLines (truthyOptB opts2.noAlias) plur tableNameOrig sp3)).flatten),
   opts2)

/-! ## The timestamp bookkeeping of `addTable` (lines 127-166, 637-652) -/

/-- JS falsiness of an optional string option (`!additional.createdAt`):
absent or the empty string. -/
def falsyOptS : Option String → Bool
  | some s => s = ""
  | none => true

/-- `AutoGenerator.isTimestampField` (lines 637-644). -/
def isTimestampField (additional : AdditionalM) (field : String) : Bool :=
  if additional.timestamps = some false then false
  else
    ((falsyOptS additional.createdAt ∧ strLower field = "createdat") ∨
      additional.createdAt = some field) ∨
    ((falsyOptS additional.updatedAt ∧ strLower field = "updatedat") ∨
      additional.updatedAt = some field)

/-- `AutoGenerator.isParanoidField` (lines 646-652). -/
def isParanoidField (additional : AdditionalM) (field : String) : Bool :=
  if additional.timestamps = some false ∨ additional.paranoid = some false then false
  else
    (falsyOptS additional.deletedAt ∧ strLower field = "deletedat") ∨
    additional.deletedAt = some field

/-- The `timestamps` flag of `addTable` (line 127 seed, line 134 fold). -/
def computeTimestamps (additional : AdditionalM) (fields : List String) : Bool :=
  (additional.timestamps = some true) || fields.any (isTimestampField additional)

/-- The `paranoid` flag of `addTable` (line 128 seed, line 135 fold). -/
def computeParanoid (additional : AdditionalM) (fields : List String) : Bool :=
  fields.any (isParanoidField additional)

/-- The timestamps section of the options block (lines 155-166): the four
`str +=` chunks, each one element, each prefixed by `space[2]`. -/
def timestampOptionLines (sp2 : String) (additional : AdditionalM) (fields : List String) :
    List String :=
  let timestamps := computeTimestamps additional fields
  let paranoid := computeParanoid additional fields
  (["timestamps: " ++ (if timestamps then "true" else "false") ++ ",\n"]
    ++ (if paranoid then ["paranoid: true,\n"] else [])
    ++ (if timestamps ∧ ¬(fields.contains "lastModifiedAt") then ["updatedAt: false,\n"] else [])
    ++ (if timestamps ∧ ¬(fields.contains "createdAt") then ["createdAt: false,\n"] else [])).map
    (fun l => sp2 ++ l)

example :
    timestampOptionLines "\t\t" { timestamps := some true } ["id", "createdAt"]
      = ["\t\ttimestamps: true,\n", "\t\tupdatedAt: false,\n"] := by decide
example :
    timestampOptionLines "\t\t" {} ["id", "updatedAt", "deletedAt"]
      = ["\t\ttimestamps: true,\n", "\t\tparanoid: true,\n", "\t\tupdatedAt: false,\n",
         "\t\tcreatedAt: false,\n"] := by decide

/-! ## Support lemmas -/

theorem strData_append (s t : String) : (s ++ t).data = s.data ++ t.data := rfl

theorem strAppend_empty (s : String) : s ++ "" = s := by
  cases s with
  | mk l => exact congrArg String.mk (List.append_nil l)

theorem strData_eq {s : String} {l : List Char} (h : s.data = l) : s = ⟨l⟩ := by
  cases s; cases h; rfl

theorem startsWithL_iff_exists (p l : List Char) :
    startsWithL p l = true ↔ ∃ r, l = p ++ r := by
  induction p generalizing l with
  | nil => simp [startsWithL]
  | cons a ps ih =>
    cases l with
    | nil => simp [startsWithL]
    | cons c cs =>
      simp only [startsWithL, Bool.and_eq_true, beq_iff_eq, ih, List.cons_append]
      constructor
      · rintro ⟨rfl, r, rfl⟩
        exact ⟨r, rfl⟩
      · rintro ⟨r, h⟩
        injection h with h1 h2
        exact ⟨h1.symm, r, h2⟩

theorem strAppend_left_inj (s : String) : Function.Injective (fun t => s ++ t) := by
  intro a b h
  have h2 : s.data ++ a.data = s.data ++ b.data := by
    have := congrArg String.data h
    simpa [strData_append] using this
  have h3 := List.append_cancel_left h2
  cases a; cases b
  exact congrArg String.mk h3

theorem append_ne_empty_of_right {a b : String} (h : b.data ≠ []) : a ++ b ≠ "" := by
  intro heq
  have h2 := congrArg String.data heq
  rw [strData_append] at h2
  exact h ((List.append_eq_nil.mp h2).2)

theorem mem_ite_singleton {x y : String} {c : Prop} [Decidable c] :
    (x ∈ if c then [y] else ([] : List String)) ↔ (c ∧ x = y) := by
  split
  · simp [*]
  · simp [*]

/-! ## Claims -/

/-- C1 (counterexample): the engine does mutate its inputs.  With `noAlias`
left unset, `addTable` hands back an options object whose `noAlias` has been
overwritten with `true` (line 187), and `addField` writes the looked-up
foreign key onto the column descriptor (line 244). -/
theorem c1_counterexample :
    (addTableAssoc {} (fun s => s ++ "s") [] "t" "\t\t\t").2 ≠ ({} : Options)
    ∧ addFieldApplyFK { type := "int" } (some { isForeignKey := true })
        ≠ ({ type := "int" } : FieldM) := by
  constructor <;> decide

/-- C1 (amended): the only mutations are those two writes — the options
object survives `addTable` unchanged exactly when `noAlias` was already
`true`, and the column descriptor survives `addField` unchanged exactly when
there is no foreign key to record or it is already recorded; everything else
is append-only construction of the output text. -/
theorem c1_mutation_amended :
    ∀ (opts : Options) (plur : String → String) (relations : List Relation)
      (t sp3 : String) (f : FieldM) (k : Option FKSpec),
      ((addTableAssoc opts plur relations t sp3).2 = opts ↔ opts.noAlias = some true)
      ∧ (addFieldApplyFK f k = f ↔ (k = none ∨ f.foreignKey = k)) := by
  intro opts plur relations t sp3 f k
  constructor
  · show ({ opts with noAlias := some true } : Options) = opts ↔ opts.noAlias = some true
    cases opts
    simp [Options.mk.injEq, eq_comm]
  · cases k with
    | none => simp [addFieldApplyFK]
    | some fk =>
      cases f
      simp [addFieldApplyFK, FieldM.mk.injEq, eq_comm]

/-- C2 (counterexample): a column of raw type `float8` is mapped by
`getSqType` to the single-precision `DataTypes.FLOAT`, not to
`DataTypes.DOUBLE`: the `/^(float|float4)/` rule of line 505 fires before
the `/^(float8|double)/` rule of line 513 because `float` is a prefix of
`float8`. -/
theorem c2_counterexample :
    getSqType 1 { type := "float8" } SqAttr.type = some (some "DataTypes.FLOAT")
    ∧ some (some "DataTypes.FLOAT") ≠ some (some "DataTypes.DOUBLE") := by
  constructor <;> decide

/-- C2 (amended): every raw type whose lower-cased form begins with `float8`
(and is not intercepted by the earlier substring rules for
`varchar`/`string`/`varying` or the `text` suffix rule) is mapped to
`DataTypes.FLOAT` with the `(p,s)` precision appended when present; the
`float8|double` double rule is unreachable for such types. -/
theorem c2_float8_amended :
    ∀ (t : String) (n : Nat),
      startsWithS (strLower t) "float8" = true →
      containsS (strLower t) "varchar" = false →
      containsS (strLower t) "string" = false →
      containsS (strLower t) "varying" = false →
      endsWithS (strLower t) "text" = false →
      getSqType (n + 1) { type := t } SqAttr.type
        = some (some ("DataTypes.FLOAT" ++ optStr (findPrec (strLower t)))) := by
  intro t n hf h1 h2 h3 h4
  obtain ⟨r, hr⟩ : ∃ r, (strLower t).data = "float8".data ++ r :=
    (startsWithL_iff_exists _ _).mp hf
  have ht : strLower t = ⟨'f' :: 'l' :: 'o' :: 'a' :: 't' :: '8' :: r⟩ := strData_eq hr
  rw [ht] at h1 h2 h3 h4
  simp only [getSqType, attrVal]
  rw [ht, h1, h2, h3, h4]
  rfl

/-- C2 (witness for the amended claim): `float8(10,2)` maps to
`DataTypes.FLOAT(10,2)`. -/
theorem c2_float8_amended_w :
    getSqType 1 { type := "float8(10,2)" } SqAttr.type
      = some (some ("DataTypes.FLOAT" ++ optStr (findPrec (strLower "float8(10,2)")))) :=
  c2_float8_amended "float8(10,2)" 0 (by decide) (by decide) (by decide) (by decide) (by decide)

/-- C3 (counterexample): with the alias-suppression option left unset, a
belongs-to whose parent model and parent property agree up to case is still
emitted without the explicit alias, because line 187 overwrites
`options.noAlias` with `true` before the relation loop runs. -/
theorem c3_counterexample :
    (addTableAssoc {} (fun s => s ++ "s")
        [{ parentModel := "User", childModel := "Order", parentProp := "user",
           childProp := "orders", parentId := "user_id" }] "Order" "\t\t\t").1
      = "\t\t\t// (autogenerated) models.Order.belongsTo(models.User, \x7b foreignKey: \"user_id\"\x7d);\n"
    ∧ containsS
        (addTableAssoc {} (fun s => s ++ "s")
          [{ parentModel := "User", childModel := "Order", parentProp := "user",
             childProp := "orders", parentId := "user_id" }] "Order" "\t\t\t").1
        "as: \"user\"" = false := by
  constructor <;> decide

/-- C3 (amended): `addTable` force-sets `noAlias` to `true` before emitting
associations, so the association block is entirely independent of the
incoming `noAlias` option, and for every non-many-to-many relation whose
child model is the table being assembled, the emitted belongs-to
declaration omits the explicit alias exactly when the lower-cased parent
model name equals the lower-cased parent property name (and carries
`as: "<parentProp>"` otherwise). -/
theorem c3_noalias_amended :
    (∀ (opts : Options) (b : Option Bool) (plur : String → String)
        (relations : List Relation) (t sp3 : String),
        addTableAssoc { opts with noAlias := b } plur relations t sp3
          = addTableAssoc opts plur relations t sp3)
    ∧ (∀ (plur : String → String) (rel : Relation) (sp3 : String),
        rel.isM2M = false →
        rel.parentModel ≠ rel.childModel →
        ((strLower rel.parentModel = strLower rel.parentProp →
            relLines true plur rel.childModel sp3 rel
              = [sp3 ++ "// (autogenerated) models." ++ rel.childModel ++
                  ".belongsTo(models." ++ rel.parentModel ++ ", \x7b " ++
                  "foreignKey: \"" ++ rel.parentId ++ "\"\x7d);\n"])
          ∧ (strLower rel.parentModel ≠ strLower rel.parentProp →
            relLines true plur rel.childModel sp3 rel
              = [sp3 ++ "// (autogenerated) models." ++ rel.childModel ++
                  ".belongsTo(models." ++ rel.parentModel ++ ", \x7b " ++
                  ("as: \"" ++ rel.parentProp ++ "\", ") ++
                  "foreignKey: \"" ++ rel.parentId ++ "\"\x7d);\n"]))) := by
  constructor
  · intro opts b plur relations t sp3
    cases opts
    rfl
  · intro plur rel sp3 hm hne
    unfold relLines
    rw [if_neg (fun h : rel.isM2M = true => Bool.false_ne_true (hm ▸ h)),
      if_pos (rfl : rel.childModel = rel.childModel), if_neg hne]
    constructor
    · intro heq
      have hb : bAliasStr true rel = "" := by
        unfold bAliasStr
        rw [if_pos ⟨rfl, heq⟩]
      rw [hb, strAppend_empty]
      rfl
    · intro hneq
      have hb : bAliasStr true rel = "as: \"" ++ rel.parentProp ++ "\", " := by
        unfold bAliasStr
        rw [if_neg (fun h => hneq h.2)]
      rw [hb]
      rfl

/-- C3 (witness for the amended claim): the alias is dropped for the
case-insensitively matching `User`/`user` pair and kept for `User`/`owner`,
with the noAlias option playing no role. -/
theorem c3_noalias_amended_w :
    (relLines true (fun s => s ++ "s") "Order" "\t"
        { parentModel := "User", childModel := "Order", parentProp := "user",
          childProp := "orders", parentId := "user_id" }
      = ["\t// (autogenerated) models.Order.belongsTo(models.User, \x7b foreignKey: \"user_id\"\x7d);\n"])
    ∧ (relLines true (fun s => s ++ "s") "Order" "\t"
        { parentModel := "User", childModel := "Order", parentProp := "owner",
          childProp := "orders", parentId := "owner_id" }
      = ["\t// (autogenerated) models.Order.belongsTo(models.User, \x7b as: \"owner\", foreignKey: \"owner_id\"\x7d);\n"]) := by
  constructor
  · exact ((c3_noalias_amended.2 (fun s => s ++ "s")
      { parentModel := "User", childModel := "Order", parentProp := "user",
        childProp := "orders", parentId := "user_id" } "\t"
      (by decide) (by decide)).1 (by decide)).trans (by decide)
  · exact ((c3_noalias_amended.2 (fun s => s ++ "s")
      { parentModel := "User", childModel := "Order", parentProp := "owner",
        childProp := "orders", parentId := "owner_id" } "\t"
      (by decide) (by decide)).2 (by decide)).trans (by decide)

/-- C4 (counterexample): a column whose raw type is the lower-case
`tinyint(1)` is mapped by the static-type mapper to `number`, not to the
boolean type: the check of line 605 compares against the upper-case literal
`'TINYINT(1)'` only, and the lowered string then matches the numeric
prefix rule. -/
theorem c4_counterexample :
    getTypeScriptFieldType 1 { type := "tinyint(1)" } SqAttr.type = some ("number", [])
    ∧ ("number", ([] : List String)) ≠ ("boolean", ([] : List String)) := by
  constructor <;> decide

/-- C4 (amended): the static mapper returns the boolean type only for the
exact raw string `TINYINT(1)`; every other letter-casing of `tinyint(1)`
lowers to a string caught by the numeric prefix rule and yields `number`. -/
theorem c4_static_tinyint_amended :
    (∀ (fuel : Nat) (t : String), strLower t = "tinyint(1)" → t ≠ "TINYINT(1)" →
      getTypeScriptFieldType (fuel + 1) { type := t } SqAttr.type = some ("number", []))
    ∧ (∀ fuel : Nat,
      getTypeScriptFieldType (fuel + 1) { type := "TINYINT(1)" } SqAttr.type
        = some ("boolean", [])) := by
  constructor
  · intro fuel t h hne
    simp only [getTypeScriptFieldType, attrVal, h]
    rw [if_neg (by decide), if_neg hne, if_pos (by decide)]
  · intro fuel
    simp only [getTypeScriptFieldType, attrVal]
    rw [if_neg (by decide), if_pos trivial]

/-- C4 (witness for the amended claim): the mixed-case `TinyInt(1)` maps to
`number`. -/
theorem c4_static_tinyint_amended_w :
    getTypeScriptFieldType 1 { type := "TinyInt(1)" } SqAttr.type = some ("number", []) :=
  c4_static_tinyint_amended.1 0 "TinyInt(1)" (by decide) (by decide)

/-- C5: for a many-to-many relation, assembling the parent's table emits
exactly the one belongs-to-many comment — referencing the join model, the
pluralized child property as alias, and both join columns — and assembling
the child's table emits nothing for that relation. -/
theorem c5_m2m_emission :
    ∀ (b : Bool) (plur : String → String) (rel : Relation) (sp3 : String),
      rel.isM2M = true →
      (relLines b plur rel.parentModel sp3 rel
          = [sp3 ++ "// (autogenerated) models." ++ rel.parentModel ++ ".belongsToMany(models." ++
              rel.childModel ++ ", \x7b as: '" ++ plur rel.childProp ++ "', through: models." ++
              rel.joinModel ++ ", foreignKey: \"" ++ rel.parentId ++ "\", otherKey: \"" ++
              rel.childId ++ "\" \x7d);\n"]
        ∧ (rel.childModel ≠ rel.parentModel → relLines b plur rel.childModel sp3 rel = [])) := by
  intro b plur rel sp3 hm
  unfold relLines
  rw [if_pos hm, if_pos hm]
  constructor
  · rw [if_pos rfl]
  · intro hne
    rw [if_neg (fun h => hne h.symm)]

/-- C5 (witness): a concrete user/role many-to-many through `UserRole`. -/
theorem c5_m2m_emission_w :
    (relLines true (fun s => s ++ "s") "User" "\t"
        { parentModel := "User", childModel := "Role", parentProp := "user",
          childProp := "role", parentId := "user_id", childId := "role_id",
          joinModel := "UserRole", isM2M := true }
      = ["\t// (autogenerated) models.User.belongsToMany(models.Role, \x7b as: 'roles', through: models.UserRole, foreignKey: \"user_id\", otherKey: \"role_id\" \x7d);\n"])
    ∧ (relLines true (fun s => s ++ "s") "Role" "\t"
        { parentModel := "User", childModel := "Role", parentProp := "user",
          childProp := "role", parentId := "user_id", childId := "role_id",
          joinModel := "UserRole", isM2M := true }
      = []) := by
  have h := c5_m2m_emission true (fun s => s ++ "s")
    { parentModel := "User", childModel := "Role", parentProp := "user",
      childProp := "role", parentId := "user_id", childId := "role_id",
      joinModel := "UserRole", isM2M := true } "\t" (by decide)
  exact ⟨h.1, h.2 (by decide)⟩

/-- C6: whenever the recased property name differs from the raw column name,
the `field:` source-column override is emitted, except exactly when the
column is a primary key, the dialect cannot alias primary keys, and the two
names differ only by letter case. -/
theorem c6_field_override :
    ∀ (sp3 field fieldName : String) (primaryKey canAliasPK : Bool),
      field ≠ fieldName →
      (¬(fieldOverride sp3 field fieldName primaryKey canAliasPK = "") ↔
        ¬(primaryKey = true ∧ canAliasPK = false ∧ strUpper field = strUpper fieldName)) := by
  intro sp3 field fieldName pk ca hne
  have hemp : sp3 ++ "field: '" ++ field ++ "',\n" ≠ "" :=
    append_ne_empty_of_right (by decide)
  unfold fieldOverride
  rw [if_pos hne]
  rcases pk <;> rcases ca <;> by_cases hu : strUpper field = strUpper fieldName <;>
    simp [hu, hemp]

/-- C6 (witness): a case-only rename of a primary key under a dialect that
cannot alias primary keys suppresses the override. -/
theorem c6_field_override_w :
    ¬(fieldOverride "\t\t\t" "UserId" "userId" true false = "") ↔
      ¬(true = true ∧ false = false ∧ strUpper "UserId" = strUpper "userId") :=
  c6_field_override "\t\t\t" "UserId" "userId" true false (by decide)

/-- C9: on a raw type string matched by none of the static mapper's rules,
`getTypeScriptFieldType` totally returns the catch-all `any` together with
exactly one diagnostic message naming the unrecognized (lowered) type
string — it neither throws nor diverges. -/
theorem c9_unrecognized_total :
    ∀ (fuel : Nat) (f : FieldM),
      recognizedStatic f (strLower f.type) = false →
      getTypeScriptFieldType (fuel + 1) f SqAttr.type
        = some ("any", ["Missing TypeScript type: " ++
            (if strLower f.type = "" then f.type else strLower f.type)]) := by
  intro fuel f h
  simp only [recognizedStatic, Bool.or_eq_false_iff, decide_eq_false_iff_not] at h
  obtain ⟨⟨⟨⟨⟨⟨⟨h1, h2⟩, h3⟩, h4⟩, h5⟩, h6⟩, h7⟩, h8⟩ := h
  simp only [getTypeScriptFieldType, attrVal]
  rw [if_neg (by simp [h1]), if_neg h2, if_neg (by simp [h3]), if_neg (by simp [h4]),
    if_neg (by simp [h5]), if_neg (by simp [h6]), if_neg (by simp [h7]), if_neg h8]

/-- C9 (witness): `blob` (which the static mapper has no rule for) maps to
`any` with the diagnostic. -/
theorem c9_unrecognized_total_w :
    getTypeScriptFieldType 1 { type := "blob" } SqAttr.type
      = some ("any", ["Missing TypeScript type: blob"]) := by
  have h := c9_unrecognized_total 0 { type := "blob" } (by decide)
  exact h.trans (by decide)

/-- Membership in the timestamps section, reduced to the un-indented chunk. -/
theorem tsLines_mem (sp2 x : String) (additional : AdditionalM) (fields : List String) :
    ((sp2 ++ x) ∈ timestampOptionLines sp2 additional fields) ↔
      (x = "timestamps: " ++ (if computeTimestamps additional fields then "true" else "false") ++ ",\n"
        ∨ (computeParanoid additional fields = true ∧ x = "paranoid: true,\n")
        ∨ ((computeTimestamps additional fields = true ∧ ¬(fields.contains "lastModifiedAt" = true))
            ∧ x = "updatedAt: false,\n")
        ∨ ((computeTimestamps additional fields = true ∧ ¬(fields.contains "createdAt" = true))
            ∧ x = "createdAt: false,\n")) := by
  unfold timestampOptionLines
  rw [List.mem_map_of_injective (strAppend_left_inj sp2)]
  simp [List.mem_append, mem_ite_singleton]

/-- C10: when the computed `timestamps` flag is on, the options block
carries the `updatedAt: false,` line exactly when no field is named
(case-sensitively) `lastModifiedAt`, and the `createdAt: false,` line
exactly when no field is named `createdAt` (lines 160-166). -/
theorem c10_timestamp_suppression :
    ∀ (sp2 : String) (additional : AdditionalM) (fields : List String),
      computeTimestamps additional fields = true →
      (((sp2 ++ "updatedAt: false,\n") ∈ timestampOptionLines sp2 additional fields ↔
          ¬("lastModifiedAt" ∈ fields))
        ∧ ((sp2 ++ "createdAt: false,\n") ∈ timestampOptionLines sp2 additional fields ↔
          ¬("createdAt" ∈ fields))) := by
  intro sp2 additional fields hts
  rw [tsLines_mem, tsLines_mem, hts]
  constructor
  · by_cases hL : "lastModifiedAt" ∈ fields <;>
      by_cases hp : computeParanoid additional fields = true <;>
        simp [hp, hL, List.elem_iff]
  · by_cases hC : "createdAt" ∈ fields <;>
      by_cases hp : computeParanoid additional fields = true <;>
        simp [hp, hC, List.elem_iff]

/-- C10 (witness): with timestamps enabled through the options and neither
special field present, both suppression lines appear. -/
theorem c10_timestamp_suppression_w :
    ((("\t\t" ++ "updatedAt: false,\n") ∈
        timestampOptionLines "\t\t" { timestamps := some true } ["id"] ↔
      ¬("lastModifiedAt" ∈ (["id"] : List String)))
    ∧ (("\t\t" ++ "createdAt: false,\n") ∈
        timestampOptionLines "\t\t" { timestamps := some true } ["id"] ↔
      ¬("createdAt" ∈ (["id"] : List String)))) :=
  c10_timestamp_suppression "\t\t" { timestamps := some true } ["id"] (by decide)

/-- A character that lower-cases into the alphabet of the five SQL "now"
keywords: a lower-case letter or an underscore. -/
def tameB (k : Char) : Bool := ('a' ≤ k && k ≤ 'z') || k = '_'

theorem tame_escChar {c : Char} (h : tameB (charLower c) = true) : escChar c = [c] := by
  unfold escChar
  split_ifs with h1 h2 h3 h4 h5 h6 h7 h8
  · subst h1; exact absurd h (by decide)
  · subst h2; exact absurd h (by decide)
  · subst h3; exact absurd h (by decide)
  · subst h4; exact absurd h (by decide)
  · subst h5; exact absurd h (by decide)
  · subst h6; exact absurd h (by decide)
  · subst h7; exact absurd h (by decide)
  · subst h8; exact absurd h (by decide)
  · rfl

theorem escL_id {l : List Char} (h : ∀ c ∈ l, tameB (charLower c) = true) : escL l = l := by
  induction l with
  | nil => rfl
  | cons c cs ih =>
    simp only [escL, tame_escChar (h c (by simp)), List.cons_append, List.nil_append,
      List.cons.injEq, true_and]
    exact ih (fun d hd => h d (by simp [hd]))

theorem startsWith_paren_false {l : List Char} (rest : List Char)
    (h : ∀ c ∈ l, tameB (charLower c) = true) : startsWithL (')' :: rest) l = false := by
  cases l with
  | nil => rfl
  | cons c cs =>
    have hc : c ≠ ')' := by
      intro he
      subst he
      exact absurd (h ')' (by simp)) (by decide)
    simp [startsWithL, beq_eq_false_iff_ne.mpr (fun he => hc he.symm)]

/-- Strings made of tame characters are unchanged by `escapeSpecial` and
do not end in `()` or `())`. -/
theorem tame_support (dv : String) (h : ∀ c ∈ dv.data, tameB (charLower c) = true) :
    escapeSpecial dv = dv ∧ endsWithS dv "()" = false ∧ endsWithS dv "())" = false := by
  have hrev : ∀ c ∈ dv.data.reverse, tameB (charLower c) = true :=
    fun c hc => h c (List.mem_reverse.mp hc)
  refine ⟨?_, ?_, ?_⟩
  · show (⟨escL dv.data⟩ : String) = dv
    rw [escL_id h]
  · exact startsWith_paren_false ['('] hrev
  · exact startsWith_paren_false [')', '('] hrev

theorem all_tame_of_mem_kw : ∀ K ∈ sqlNowKeywords, ∀ k ∈ K.data, tameB k = true := by decide

theorem kws_tame (dv : String) (h : strLower dv ∈ sqlNowKeywords) :
    ∀ c ∈ dv.data, tameB (charLower c) = true := by
  intro c hc
  have hmem : charLower c ∈ (strLower dv).data := List.mem_map_of_mem charLower hc
  exact all_tame_of_mem_kw _ h _ hmem

theorem kw_neq_sentinels (dv : String) (h : strLower dv ∈ sqlNowKeywords) :
    ¬(strLower dv = "(newid())") ∧ ¬(dv = "(NULL)") ∧ ¬(dv = "NULL") := by
  refine ⟨?_, ?_, ?_⟩
  · intro he; rw [he] at h; exact absurd h (by decide)
  · intro he; rw [he] at h; exact absurd h (by decide)
  · intro he; rw [he] at h; exact absurd h (by decide)

/-- On a `date`/`timestamp`-prefixed (non-range) column type, a string
default that does not end in `()` or `())` reaches the date branch of the
conversion (lines 354-359): keyword defaults become the raw-literal wrapper,
everything else the quoted string. -/
theorem convert_date_branch (ft : String) (et : Option String) (s : String)
    (hd : (startsWithS (strLower ft) "date" || startsWithS (strLower ft) "timestamp") = true)
    (hr : endsWithS (strLower ft) "range" = false)
    (h1 : endsWithS (escapeSpecial s) "()" = false)
    (h2 : endsWithS (escapeSpecial s) "())" = false) :
    convertStringDefault ft et s =
      (if sqlNowKeywords.contains (strLower (escapeSpecial s)) = true then
        "Sequelize.Sequelize.literal('" ++ escapeSpecial s ++ "')"
      else "\"" ++ escapeSpecial s ++ "\"") := by
  rcases (Bool.or_eq_true _ _).mp hd with hsw | hsw
  · obtain ⟨r0, hr0⟩ := (startsWithL_iff_exists _ _).mp hsw
    have hft : strLower ft = ⟨'d' :: 'a' :: 't' :: 'e' :: r0⟩ := strData_eq hr0
    rw [hft] at hr
    have hA : isArrayS ⟨'d' :: 'a' :: 't' :: 'e' :: r0⟩ = false := by
      unfold isArrayS
      rw [hr]
      rfl
    simp only [convertStringDefault]
    rw [hft, hA, h1, h2]
    rfl
  · obtain ⟨r0, hr0⟩ := (startsWithL_iff_exists _ _).mp hsw
    have hft : strLower ft
        = ⟨'t' :: 'i' :: 'm' :: 'e' :: 's' :: 't' :: 'a' :: 'm' :: 'p' :: r0⟩ := strData_eq hr0
    rw [hft] at hr
    have hA : isArrayS ⟨'t' :: 'i' :: 'm' :: 'e' :: 's' :: 't' :: 'a' :: 'm' :: 'p' :: r0⟩ = false := by
      unfold isArrayS
      rw [hr]
      rfl
    simp only [convertStringDefault]
    rw [hft, hA, h1, h2]
    rfl

/-- C7 (counterexample): an undefined default value is normalized to
"no default emitted" under a dialect other than mssql as well (the general
null/undefined check of line 318 catches it), contradicting the claimed
"if and only if the dialect is mssql". -/
theorem c7_counterexample :
    normalizeDefault "postgres" JsVal.undefV "varchar(255)" none false = some none
    ∧ ("postgres" : String) ≠ "mssql" := by
  constructor <;> decide

/-- C7 (amended): an undefined default yields no emitted default under every
dialect; the three string sentinels `(newid())`, `(NULL)`, `NULL` are
normalized to Absent exactly under mssql, and under any other dialect they
proceed through the ordinary string conversion and are emitted. -/
theorem c7_mssql_sentinels_amended :
    ∀ (d ft : String) (et : Option String),
      (normalizeDefault d JsVal.undefV ft et false = some none)
      ∧ (∀ s, s ∈ (["(newid())", "(NULL)", "NULL"] : List String) →
          normalizeDefault "mssql" (.strV s) ft et false = some none)
      ∧ (d ≠ "mssql" → ∀ s, s ∈ (["(newid())", "(NULL)", "NULL"] : List String) →
          normalizeDefault d (.strV s) ft et false
            = some (some (convertStringDefault ft et s))) := by
  intro d ft et
  refine ⟨?_, ?_, ?_⟩
  · have hpre : mssqlNewidFilter d .undefV = some .undefV := by
      unfold mssqlNewidFilter
      rw [if_neg (fun h => absurd h.2 (by decide))]
    unfold normalizeDefault
    rw [hpre]
    show some (emitDefault (mssqlNullFilter d .undefV) ft et false) = some none
    unfold mssqlNullFilter
    by_cases hd : d = "mssql"
    · rw [if_pos ⟨hd, Or.inr (Or.inr rfl)⟩]
      rfl
    · rw [if_neg (fun h => hd h.1)]
      rfl
  · intro s hs
    simp only [List.mem_cons, List.not_mem_nil, or_false] at hs
    rcases hs with rfl | rfl | rfl <;> rfl
  · intro hd s hs
    have hpre : ∀ u : String, mssqlNewidFilter d (.strV u) = some (.strV u) := by
      intro u
      unfold mssqlNewidFilter
      rw [if_neg (fun h => hd h.1)]
    have hnull : ∀ u : String, mssqlNullFilter d (.strV u) = .strV u := by
      intro u
      unfold mssqlNullFilter
      rw [if_neg (fun h => hd h.1)]
    simp only [List.mem_cons, List.not_mem_nil, or_false] at hs
    rcases hs with rfl | rfl | rfl <;>
      · unfold normalizeDefault
        rw [hpre]
        show some (emitDefault (mssqlNullFilter d (.strV _)) ft et false) = _
        rw [hnull]
        rfl

/-- C7 (witness for the amended claim): undefined is dropped under postgres,
`NULL` is dropped under mssql, and `(NULL)` on a postgres `int4` column is
emitted as the bare literal `NULL`. -/
theorem c7_mssql_sentinels_amended_w :
    (normalizeDefault "postgres" JsVal.undefV "int4" none false = some none)
    ∧ (normalizeDefault "mssql" (.strV "NULL") "int4" none false = some none)
    ∧ (normalizeDefault "postgres" (.strV "(NULL)") "int4" none false = some (some "NULL")) := by
  refine ⟨(c7_mssql_sentinels_amended "postgres" "int4" none).1,
    (c7_mssql_sentinels_amended "postgres" "int4" none).2.1 "NULL" (by decide),
    ((c7_mssql_sentinels_amended "postgres" "int4" none).2.2 (by decide) "(NULL)"
      (by decide)).trans (by decide)⟩

/-- C8 (counterexample): the string default `now()` on a `timestamp` column
is not one of the five keywords, yet it does not become a quoted string
literal — the zero-argument function-call rule of line 350 intercepts it and
emits a `fn` wrapper. -/
theorem c8_counterexample :
    normalizeDefault "postgres" (.strV "now()") "timestamp" none false
      = some (some "Sequelize.Sequelize.fn('now')")
    ∧ ("Sequelize.Sequelize.fn('now')" : String) ≠ "\"now()\"" := by
  constructor <;> decide

/-- C8 (amended): on a column whose lowered type begins with `date` or
`timestamp` and does not end in `range` (the range types are intercepted by
the array rule), a string default lower-casing to one of the five keywords
becomes the raw-literal wrapper carrying the default verbatim; a string
default that is not a keyword after escaping and does not end in `()` or
`())` (and, under mssql, is none of the dialect sentinels) becomes the
double-quoted string literal. -/
theorem c8_date_default_amended :
    ∀ (d ft : String) (et : Option String) (s : String),
      (startsWithS (strLower ft) "date" || startsWithS (strLower ft) "timestamp") = true →
      endsWithS (strLower ft) "range" = false →
      ((strLower s ∈ sqlNowKeywords →
          normalizeDefault d (.strV s) ft et false
            = some (some ("Sequelize.Sequelize.literal('" ++ s ++ "')")))
        ∧ (sqlNowKeywords.contains (strLower (escapeSpecial s)) = false →
            endsWithS (escapeSpecial s) "()" = false →
            endsWithS (escapeSpecial s) "())" = false →
            (d = "mssql" → ¬(strLower s = "(newid())") ∧ s ≠ "(NULL)" ∧ s ≠ "NULL") →
            normalizeDefault d (.strV s) ft et false
              = some (some ("\"" ++ escapeSpecial s ++ "\"")))) := by
  intro d ft et s hdt hrg
  have hcore : ∀ (hs1 : ¬(strLower s = "(newid())")) (hs2 : ¬(s = "(NULL)")) (hs3 : ¬(s = "NULL")),
      normalizeDefault d (.strV s) ft et false = some (some (convertStringDefault ft et s)) := by
    intro hs1 hs2 hs3
    have hpre : mssqlNewidFilter d (.strV s) = some (.strV s) := by
      unfold mssqlNewidFilter
      by_cases hd : d = "mssql" ∧ truthy (JsVal.strV s) = true
      · rw [if_pos hd]
        show some (if strLower s = "(newid())" then JsVal.nullV else .strV s) = some (.strV s)
        rw [if_neg hs1]
      · rw [if_neg hd]
    have hnull : mssqlNullFilter d (.strV s) = .strV s := by
      unfold mssqlNullFilter
      rw [if_neg (fun h => by
        rcases h.2 with h2 | h2 | h2
        · exact hs2 (JsVal.strV.inj h2)
        · exact hs3 (JsVal.strV.inj h2)
        · exact JsVal.noConfusion h2)]
    unfold normalizeDefault
    rw [hpre]
    show some (emitDefault (mssqlNullFilter d (.strV s)) ft et false) = _
    rw [hnull]
    rfl
  constructor
  · intro hkw
    obtain ⟨hesc, hp1, hp2⟩ := tame_support s (kws_tame s hkw)
    obtain ⟨hs1, hs2, hs3⟩ := kw_neq_sentinels s hkw
    have hconv : convertStringDefault ft et s
        = "Sequelize.Sequelize.literal('" ++ s ++ "')" := by
      rw [convert_date_branch ft et s hdt hrg (by rw [hesc]; exact hp1) (by rw [hesc]; exact hp2)]
      rw [hesc, if_pos (List.elem_iff.mpr hkw)]
    rw [hcore hs1 hs2 hs3, hconv]
  · intro hnk h1 h2 hms
    have hconv : convertStringDefault ft et s = "\"" ++ escapeSpecial s ++ "\"" := by
      rw [convert_date_branch ft et s hdt hrg h1 h2, if_neg (by rw [hnk]; exact Bool.false_ne_true)]
    by_cases hd : d = "mssql"
    · rw [hcore (hms hd).1 (hms hd).2.1 (hms hd).2.2, hconv]
    · have hpre : mssqlNewidFilter d (.strV s) = some (.strV s) := by
        unfold mssqlNewidFilter
        rw [if_neg (fun h => hd h.1)]
      have hnull : mssqlNullFilter d (.strV s) = .strV s := by
        unfold mssqlNullFilter
        rw [if_neg (fun h => hd h.1)]
      unfold normalizeDefault
      rw [hpre]
      show some (emitDefault (mssqlNullFilter d (.strV s)) ft et false) = _
      rw [hnull]
      show some (some (convertStringDefault ft et s)) = _
      rw [hconv]

/-- C8 (witness for the amended claim): `CURRENT_TIMESTAMP` on a `timestamp`
column becomes the literal wrapper with its casing preserved; `abc` on a
`datetime` column becomes a quoted string. -/
theorem c8_date_default_amended_w :
    (normalizeDefault "postgres" (.strV "CURRENT_TIMESTAMP") "timestamp" none false
      = some (some "Sequelize.Sequelize.literal('CURRENT_TIMESTAMP')"))
    ∧ (normalizeDefault "postgres" (.strV "abc") "datetime" none false
      = some (some "\"abc\"")) := by
  constructor
  · exact ((c8_date_default_amended "postgres" "timestamp" none "CURRENT_TIMESTAMP"
      (by decide) (by decide)).1 (by decide)).trans (by decide)
  · exact ((c8_date_default_amended "postgres" "datetime" none "abc"
      (by decide) (by decide)).2 (by decide) (by decide) (by decide)
      (fun h => absurd h (by decide))).trans (by decide)
